import Mathlib

/-!
Shallow embedding of `src/list.rs` of `developmentseed/object-store-rs`.

The repository bridges an async object-store listing API to a Python host.
We embed the payload computation: streams become finite lists of
`Except`-results, the Rust `?` operator becomes explicit error
short-circuiting, and the `IndexMap`-based Python dict construction becomes
an ordered association list (`PyValue.dict`), since `IndexMap` preserves
insertion order.
-/

namespace ObjectStoreRs

/-- Backend errors (`object_store::Error` / `PyObjectStoreError`) are opaque
to `list.rs`; we model them as strings. -/
abbrev Error := String

/-- `object_store::ObjectMeta`: one object's descriptor.  `location` is the
field name used by the underlying storage crate; `last_modified` (a UTC
timestamp) is modelled as an integer. -/
structure ObjectMeta where
  location : String
  last_modified : Int
  size : Nat
  e_tag : Option String
  version : Option String
deriving Repr, DecidableEq

/-- The newtype `PyObjectMeta(ObjectMeta)` from `list.rs`. -/
structure PyObjectMeta where
  meta : ObjectMeta
deriving Repr, DecidableEq

/-- `object_store::ListResult`: the delimiter-grouped listing result.
`common_prefixes` is `Vec<Path>` (modelled as strings), `objects` is
`Vec<ObjectMeta>`. -/
structure ListResult where
  common_prefixes : List String
  objects : List ObjectMeta
deriving Repr, DecidableEq

/-- The newtype `PyListResult(ListResult)` from `list.rs`. -/
structure PyListResult where
  res : ListResult
deriving Repr, DecidableEq

/-- A Python value, as far as the conversions in `list.rs` produce one.
A Python dict built from an `IndexMap` keeps insertion order, so `dict`
carries an ordered association list. -/
inductive PyValue where
  | str : String → PyValue
  | int : Int → PyValue
  | timestamp : Int → PyValue
  | pynone : PyValue
  | list : List PyValue → PyValue
  | dict : List (String × PyValue) → PyValue

/-- `Option<String>::into_py`: `Some s` becomes a Python string, `None`
becomes Python `None`. -/
def optStrIntoPy : Option String → PyValue
  | some s => PyValue.str s
  | none => PyValue.pynone

/-- `impl IntoPy<PyObject> for PyObjectMeta` (`list.rs` lines 22-34): an
`IndexMap` with capacity 5 is filled, in source order, with the keys
`path` (from `self.0.location`), `last_modified`, `size`, `e_tag`,
`version`, then converted to a Python dict. -/
def PyObjectMeta.into_py (m : PyObjectMeta) : PyValue :=
  PyValue.dict
    [("path", PyValue.str m.meta.location),
     ("last_modified", PyValue.timestamp m.meta.last_modified),
     ("size", PyValue.int m.meta.size),
     ("e_tag", optStrIntoPy m.meta.e_tag),
     ("version", optStrIntoPy m.meta.version)]

/-- `impl IntoPy<PyObject> for PyListResult` (`list.rs` lines 38-61): an
`IndexMap` with capacity 2 filled with `common_prefixes` (each `Path`
converted via `String::from`) and `objects` (each `ObjectMeta` wrapped in
`PyObjectMeta` and converted), in source order. -/
def PyListResult.into_py (r : PyListResult) : PyValue :=
  PyValue.dict
    [("common_prefixes", PyValue.list (r.res.common_prefixes.map PyValue.str)),
     ("objects",
      PyValue.list (r.res.objects.map (fun m => PyObjectMeta.into_py ⟨m⟩)))]

/-- The ordered key list of a converted record (a dict's keys in insertion
order; non-dicts have none). -/
def PyValue.dictKeys : PyValue → List String
  | PyValue.dict kvs => kvs.map Prod.fst
  | _ => []

/-- A listing stream (`BoxStream<'_, object_store::Result<ObjectMeta>>`):
the finite sequence of items the source would yield, each a success or an
error. -/
abbrev ListStream := List (Except Error ObjectMeta)

/-- The `Store` capability as `list.rs` consumes it (`Arc<dyn ObjectStore>`):
the three listing entry points used by the module.  `list` is
`store.list(prefix)`, `list_with_offset` is
`store.list_with_offset(prefix, offset)`, `list_with_delimiter` is
`store.list_with_delimiter(prefix)`. -/
structure Store where
  list : Option String → ListStream
  list_with_offset : Option String → String → ListStream
  list_with_delimiter : Option String → Except Error ListResult

/-- The loop body of `materialize_list_stream` (`list.rs` lines 108-123),
with the accumulator `result` explicit.  Each step pulls the next stream
item; an error aborts via `?`; a success is pushed, and then, if a cap is
set and `result.len() >= max_items`, the accumulated vector is returned at
once without pulling again. -/
def materializeGo (max_items : Option Nat) :
    ListStream → List PyObjectMeta → Except Error (List PyObjectMeta)
  | [], result => Except.ok result
  | Except.error e :: _, _ => Except.error e
  | Except.ok object :: rest, result =>
    let result := result ++ [PyObjectMeta.mk object]
    match max_items with
    | some n => if n ≤ result.length then Except.ok result
                else materializeGo max_items rest result
    | none => materializeGo max_items rest result

/-- `materialize_list_stream(stream, max_items)`: fold the stream into a
vector, starting from the empty accumulator `vec![]`. -/
def materialize_list_stream (stream : ListStream) (max_items : Option Nat) :
    Except Error (List PyObjectMeta) :=
  materializeGo max_items stream []

/-- The Python-facing default of the `max_items` keyword, from the pyo3
signature `max_items = 2000` on `list` and `list_async`. -/
def DEFAULT_MAX_ITEMS : Option Nat := some 2000

/-- `list` (`list.rs` lines 63-86), payload computation: select the stream
(`store.list_with_offset` when an offset is given, else `store.list`) and
drive `materialize_list_stream` to completion on the shared runtime. -/
def list (store : Store) (pfx : Option String) (offset : Option String)
    (max_items : Option Nat) : Except Error (List PyObjectMeta) :=
  let stream :=
    match offset with
    | some o => store.list_with_offset pfx o
    | none => store.list pfx
  materialize_list_stream stream max_items

/-- `list_async` (`list.rs` lines 88-106), payload computation: identical
stream selection and the same `materialize_list_stream` call, handed to the
host event loop instead of the background runtime. -/
def list_async (store : Store) (pfx : Option String) (offset : Option String)
    (max_items : Option Nat) : Except Error (List PyObjectMeta) :=
  let stream :=
    match offset with
    | some o => store.list_with_offset pfx o
    | none => store.list pfx
  materialize_list_stream stream max_items

/-- `list_with_delimiter_materialize` (`list.rs` lines 157-163): one call
`store.list_with_delimiter(prefix).await?`, its result wrapped in
`PyListResult`. -/
def list_with_delimiter_materialize (store : Store) (pfx : Option String) :
    Except Error PyListResult :=
  (store.list_with_delimiter pfx).map PyListResult.mk

/-- `list_with_delimiter` (`list.rs` lines 125-141), payload computation:
drive `list_with_delimiter_materialize` on the background runtime. -/
def list_with_delimiter (store : Store) (pfx : Option String) :
    Except Error PyListResult :=
  list_with_delimiter_materialize store pfx

/-- `list_with_delimiter_async` (`list.rs` lines 143-155), payload
computation: the same `list_with_delimiter_materialize` call handed to the
host event loop. -/
def list_with_delimiter_async (store : Store) (pfx : Option String) :
    Except Error PyListResult :=
  list_with_delimiter_materialize store pfx

/-- A call to one of the `Store` primitives, for counting backend calls. -/
inductive StoreCall where
  | listCall : Option String → StoreCall
  | offsetCall : Option String → String → StoreCall
  | delimiterCall : Option String → StoreCall
deriving Repr, DecidableEq

/-- `list_with_delimiter_materialize` with its backend-call trace: the body
(`list.rs` lines 157-163) invokes exactly one `Store` primitive,
`store.list_with_delimiter(prefix)`, which the trace records. -/
def list_with_delimiter_materialize_traced (store : Store)
    (pfx : Option String) : Except Error PyListResult × List StoreCall :=
  ((store.list_with_delimiter pfx).map PyListResult.mk,
   [StoreCall.delimiterCall pfx])

/-- Whether every successful item of a stream has a key lexicographically
greater than `o` (i.e. not `≤ o`); errors are unconstrained.  This is the
contract of `Store.list_with_offset` stated by the spec. -/
def excludesLe (stream : ListStream) (o : String) : Bool :=
  stream.all fun item =>
    match item with
    | Except.ok m => !(decide (m.location ≤ o))
    | Except.error _ => true

/-- A sample object descriptor used by concrete witnesses. -/
def sampleMeta : ObjectMeta :=
  { location := "a/1", last_modified := 0, size := 3,
    e_tag := none, version := none }

/-! ### Helper lemmas about the materializer loop -/

/-- With no cap, a stream of successes is appended whole to the
accumulator. -/
theorem materializeGo_none_ok (oks : List ObjectMeta) :
    ∀ acc : List PyObjectMeta,
      materializeGo none (oks.map Except.ok) acc
        = Except.ok (acc ++ oks.map PyObjectMeta.mk) := by
  induction oks with
  | nil => intro acc; simp [materializeGo]
  | cons m rest ih =>
    intro acc
    simp only [List.map_cons, materializeGo, ih]
    simp

/-- With cap `n` and an accumulator still strictly below it, a stream of
successes contributes exactly the next `n - acc.length` items. -/
theorem materializeGo_some_ok (n : Nat) (oks : List ObjectMeta) :
    ∀ acc : List PyObjectMeta, acc.length < n →
      materializeGo (some n) (oks.map Except.ok) acc
        = Except.ok (acc ++ (oks.take (n - acc.length)).map PyObjectMeta.mk) := by
  induction oks with
  | nil => intro acc _; simp [materializeGo]
  | cons m rest ih =>
    intro acc h
    simp only [List.map_cons, materializeGo]
    by_cases hc : n ≤ (acc ++ [PyObjectMeta.mk m]).length
    · have hn : n - acc.length = 1 := by
        simp only [List.length_append, List.length_cons, List.length_nil] at hc
        omega
      rw [if_pos hc, hn]
      simp
    · have h2 : (acc ++ [PyObjectMeta.mk m]).length < n := by
        simp only [List.length_append, List.length_cons, List.length_nil] at hc ⊢
        omega
      rw [if_neg hc, ih _ h2]
      have hn : n - acc.length = (n - (acc ++ [PyObjectMeta.mk m]).length) + 1 := by
        simp only [List.length_append, List.length_cons, List.length_nil]
        omega
      rw [hn, List.take_succ_cons]
      simp

/-- With cap `n` reachable inside the leading successes, the loop returns
early and never looks at the remaining stream `tail`. -/
theorem materializeGo_reach (n : Nat) (oks : List ObjectMeta) :
    ∀ (tail : ListStream) (acc : List PyObjectMeta),
      acc.length < n → n ≤ acc.length + oks.length →
      materializeGo (some n) (oks.map Except.ok ++ tail) acc
        = Except.ok (acc ++ (oks.take (n - acc.length)).map PyObjectMeta.mk) := by
  induction oks with
  | nil =>
    intro tail acc h1 h2
    simp only [List.length_nil, Nat.add_zero] at h2
    omega
  | cons m rest ih =>
    intro tail acc h1 h2
    simp only [List.map_cons, List.cons_append, materializeGo]
    by_cases hc : n ≤ (acc ++ [PyObjectMeta.mk m]).length
    · have hn : n - acc.length = 1 := by
        simp only [List.length_append, List.length_cons, List.length_nil] at hc
        omega
      rw [if_pos hc, hn]
      simp
    · have h2' : (acc ++ [PyObjectMeta.mk m]).length < n := by
        simp only [List.length_append, List.length_cons, List.length_nil] at hc ⊢
        omega
      have h3 : n ≤ (acc ++ [PyObjectMeta.mk m]).length + rest.length := by
        simp only [List.length_cons] at h2
        simp only [List.length_append, List.length_cons, List.length_nil]
        omega
      rw [if_neg hc]
      refine (ih tail (acc ++ [PyObjectMeta.mk m]) h2' h3).trans ?_
      have hn : n - acc.length = (n - (acc ++ [PyObjectMeta.mk m]).length) + 1 := by
        simp only [List.length_append, List.length_cons, List.length_nil]
        omega
      rw [hn, List.take_succ_cons]
      simp

/-- With no cap, an error item after the leading successes aborts the loop
with that error; the accumulated items are discarded. -/
theorem materializeGo_error_none (oks : List ObjectMeta) (e : Error)
    (tail : ListStream) :
    ∀ acc : List PyObjectMeta,
      materializeGo none (oks.map Except.ok ++ (Except.error e :: tail)) acc
        = Except.error e := by
  induction oks with
  | nil => intro acc; simp [materializeGo]
  | cons m rest ih =>
    intro acc
    simp only [List.map_cons, List.cons_append, materializeGo]
    exact ih _

/-- With cap `n` not yet reached within the leading successes, the error
item is pulled and aborts the loop with that error. -/
theorem materializeGo_error_some (n : Nat) (oks : List ObjectMeta) (e : Error)
    (tail : ListStream) :
    ∀ acc : List PyObjectMeta, acc.length + oks.length < n →
      materializeGo (some n) (oks.map Except.ok ++ (Except.error e :: tail)) acc
        = Except.error e := by
  induction oks with
  | nil => intro acc _; simp [materializeGo]
  | cons m rest ih =>
    intro acc h
    simp only [List.length_cons] at h
    simp only [List.map_cons, List.cons_append, materializeGo]
    have hc : ¬ n ≤ (acc ++ [PyObjectMeta.mk m]).length := by
      simp only [List.length_append, List.length_cons, List.length_nil]
      omega
    rw [if_neg hc]
    exact ih _ (by simp; omega)

/-- Every item of a successful materialization comes from the accumulator
or from a successful stream item. -/
theorem materializeGo_mem (max_items : Option Nat) (stream : ListStream) :
    ∀ (acc out : List PyObjectMeta),
      materializeGo max_items stream acc = Except.ok out →
      ∀ x ∈ out, x ∈ acc ∨ Except.ok x.meta ∈ stream := by
  induction stream with
  | nil =>
    intro acc out h x hx
    simp only [materializeGo, Except.ok.injEq] at h
    subst h
    exact Or.inl hx
  | cons item rest ih =>
    cases item with
    | error e => intro acc out h; simp [materializeGo] at h
    | ok m =>
      intro acc out h x hx
      have step : x ∈ acc ++ [PyObjectMeta.mk m] ∨ Except.ok x.meta ∈ rest →
          x ∈ acc ∨ Except.ok x.meta ∈ Except.ok m :: rest := by
        intro hcase
        rcases hcase with h1 | h2
        · rcases List.mem_append.mp h1 with ha | hb
          · exact Or.inl ha
          · right
            simp only [List.mem_singleton] at hb
            subst hb
            exact List.mem_cons_self _ _
        · exact Or.inr (List.mem_cons_of_mem _ h2)
      cases max_items with
      | none =>
        have h' : materializeGo none rest (acc ++ [PyObjectMeta.mk m])
            = Except.ok out := h
        exact step (ih _ _ h' x hx)
      | some n =>
        have h' : (if n ≤ (acc ++ [PyObjectMeta.mk m]).length
              then Except.ok (acc ++ [PyObjectMeta.mk m])
              else materializeGo (some n) rest (acc ++ [PyObjectMeta.mk m]))
            = Except.ok out := h
        by_cases hc : n ≤ (acc ++ [PyObjectMeta.mk m]).length
        · rw [if_pos hc] at h'
          injection h' with h'
          subst h'
          exact step (Or.inl hx)
        · rw [if_neg hc] at h'
          exact step (ih _ _ h' x hx)

/-- A pure-success stream with cap `n` materializes to its first
`max n 1` items: for `n ≥ 1` that is `n` items, but for `n = 0` the loop
still pulls and returns the first item, because the cap is only checked
after a push. -/
theorem materialize_cap_all_ok (n : Nat) (oks : List ObjectMeta) :
    materialize_list_stream (oks.map Except.ok) (some n)
      = Except.ok ((oks.take (max n 1)).map PyObjectMeta.mk) := by
  cases n with
  | zero =>
    cases oks with
    | nil => rfl
    | cons m rest => rfl
  | succ k =>
    have h := materializeGo_some_ok (k + 1) oks [] (by simp)
    have hmax : max (k + 1) 1 = k + 1 := by omega
    simpa [materialize_list_stream, hmax] using h

/-- A pure-success stream with no cap materializes whole. -/
theorem materialize_none_all_ok (oks : List ObjectMeta) :
    materialize_list_stream (oks.map Except.ok) none
      = Except.ok (oks.map PyObjectMeta.mk) := by
  have h := materializeGo_none_ok oks []
  simpa [materialize_list_stream] using h

/-! ### Concrete stores for witnesses -/

/-- A sample descriptor whose key is `"b"`, for the offset witness. -/
def sampleMetaB : ObjectMeta :=
  { location := "b", last_modified := 1, size := 0,
    e_tag := none, version := none }

/-- A store whose flat listing yields 5000 successful items. -/
def sampleStore5000 : Store :=
  { list := fun _ => (List.replicate 5000 sampleMeta).map Except.ok,
    list_with_offset := fun _ _ => [],
    list_with_delimiter := fun _ =>
      Except.ok { common_prefixes := [], objects := [] } }

/-- A store whose offset listing yields one item with key `"b"`. -/
def sampleOffsetStore : Store :=
  { list := fun _ => [],
    list_with_offset := fun _ _ => [Except.ok sampleMetaB],
    list_with_delimiter := fun _ =>
      Except.ok { common_prefixes := [], objects := [] } }

/-- A sample grouped result for the delimiter witness. -/
def sampleListResult : ListResult :=
  { common_prefixes := ["a/"], objects := [sampleMeta, sampleMetaB] }

/-- A store whose delimiter listing returns `sampleListResult`. -/
def sampleDelimStore : Store :=
  { list := fun _ => [],
    list_with_offset := fun _ _ => [],
    list_with_delimiter := fun _ => Except.ok sampleListResult }

/-! ### The claims -/

/-- C1 (counterexample): with cap `max_items = 0` and a source holding one
successful item, `materialize_list_stream` pulls that item and returns a
one-element result — not the empty result of length `min 0 1` the claim
demands, because the cap is checked only after the first push. -/
theorem c1_counterexample :
    materialize_list_stream [Except.ok sampleMeta] (some 0)
        = Except.ok [PyObjectMeta.mk sampleMeta]
      ∧ [PyObjectMeta.mk sampleMeta].length ≠ min 0 1 := by
  exact ⟨rfl, by decide⟩

/-- C1 (amended): for every cap `n` and a source of `m` successful items,
the flat-list result is the first `max n 1` items of the source, so its
length is `min (max n 1) m`: for `n ≥ 1` that is `min n m` as the claim
states, but for `n = 0` the loop still pulls the first item from the
source and returns it (length `min 1 m`), because the cap is only checked
after an item has been pushed. -/
theorem c1_cap_length (n : Nat) (oks : List ObjectMeta) :
    materialize_list_stream (oks.map Except.ok) (some n)
        = Except.ok ((oks.take (max n 1)).map PyObjectMeta.mk)
      ∧ ((oks.take (max n 1)).map PyObjectMeta.mk).length
          = min (max n 1) oks.length := by
  refine ⟨materialize_cap_all_ok n oks, ?_⟩
  simp [List.length_take]

/-- C2: if the source yields `k` successes and then an error, and the cap
(when set) is larger than `k` so it is not reached first, the flat-list
materialization fails with that error and the `k` accumulated items are
discarded: the result is the bare error, with no data. -/
theorem c2_fail_fast (oks : List ObjectMeta) (e : Error) (tail : ListStream)
    (max_items : Option Nat)
    (hcap : oks.length < max_items.getD (oks.length + 1)) :
    materialize_list_stream (oks.map Except.ok ++ (Except.error e :: tail))
        max_items
      = Except.error e := by
  cases max_items with
  | none => exact materializeGo_error_none oks e tail []
  | some n =>
    exact materializeGo_error_some n oks e tail [] (by simpa using hcap)

/-- C2 witness: one success then an error, cap 5: the call fails with the
error and the accumulated item is not observable. -/
theorem c2_fail_fast_witness :
    ([sampleMeta] : List ObjectMeta).length
        < (some 5 : Option Nat).getD (([sampleMeta] : List ObjectMeta).length + 1)
      ∧ materialize_list_stream
            ([sampleMeta].map Except.ok ++ (Except.error "boom" :: [])) (some 5)
          = Except.error "boom" :=
  ⟨by decide, c2_fail_fast [sampleMeta] "boom" [] (some 5) (by decide)⟩

/-- C3: the omitted-`max_items` default is `some 2000` (the pyo3 signature
`max_items = 2000`), so against a 5000-item source the flat list returns
exactly the first 2000 items; explicitly passing `None` disables the cap
and an all-success source of `m` items is returned whole. -/
theorem c3_default_cap_and_none_uncapped (s1 s2 : Store)
    (pfx1 pfx2 : Option String) (oks1 oks2 : List ObjectMeta)
    (h1 : s1.list pfx1 = oks1.map Except.ok) (hlen : oks1.length = 5000)
    (h2 : s2.list pfx2 = oks2.map Except.ok) :
    (list s1 pfx1 none DEFAULT_MAX_ITEMS
        = Except.ok ((oks1.take 2000).map PyObjectMeta.mk)
      ∧ ((oks1.take 2000).map PyObjectMeta.mk).length = 2000)
    ∧ list s2 pfx2 none none = Except.ok (oks2.map PyObjectMeta.mk) := by
  refine ⟨⟨?_, ?_⟩, ?_⟩
  · show materialize_list_stream (s1.list pfx1) DEFAULT_MAX_ITEMS = _
    rw [h1, DEFAULT_MAX_ITEMS]
    have h := materialize_cap_all_ok 2000 oks1
    simpa using h
  · simp [List.length_take, hlen]
  · show materialize_list_stream (s2.list pfx2) none = _
    rw [h2]
    exact materialize_none_all_ok oks2

/-- C3 witness: a concrete 5000-item store, listed with the default cap
and with the cap disabled. -/
theorem c3_default_cap_witness :
    (sampleStore5000.list none = (List.replicate 5000 sampleMeta).map Except.ok
      ∧ (List.replicate 5000 sampleMeta).length = 5000
      ∧ sampleStore5000.list (some "a") = (List.replicate 5000 sampleMeta).map Except.ok)
    ∧ ((list sampleStore5000 none none DEFAULT_MAX_ITEMS
          = Except.ok (((List.replicate 5000 sampleMeta).take 2000).map PyObjectMeta.mk)
        ∧ (((List.replicate 5000 sampleMeta).take 2000).map PyObjectMeta.mk).length = 2000)
      ∧ list sampleStore5000 (some "a") none none
          = Except.ok ((List.replicate 5000 sampleMeta).map PyObjectMeta.mk)) :=
  ⟨⟨rfl, by rw [List.length_replicate], rfl⟩,
   c3_default_cap_and_none_uncapped sampleStore5000 sampleStore5000
     none (some "a") (List.replicate 5000 sampleMeta)
     (List.replicate 5000 sampleMeta) rfl (by rw [List.length_replicate]) rfl⟩

/-- C4: on an all-success source, the flat-list materialization returns
exactly a leading segment of the source's yield sequence, in the same
order — item `i` of the output is item `i` of the source, with no
reordering, insertion, duplication or skipping. -/
theorem c4_order_preserved (oks : List ObjectMeta) (max_items : Option Nat) :
    ∃ k, materialize_list_stream (oks.map Except.ok) max_items
      = Except.ok ((oks.take k).map PyObjectMeta.mk) := by
  cases max_items with
  | none =>
    refine ⟨oks.length, ?_⟩
    rw [List.take_length]
    exact materialize_none_all_ok oks
  | some n => exact ⟨max n 1, materialize_cap_all_ok n oks⟩

/-- C5: for every store, prefix, offset and cap, the blocking and
non-blocking forms compute the same result: `list` and `list_async` select
the same stream and fold it with the one shared `materialize_list_stream`,
and `list_with_delimiter` and `list_with_delimiter_async` both call the one
shared `list_with_delimiter_materialize`. -/
theorem c5_sync_async_agree :
    (∀ (store : Store) (pfx offset : Option String) (max_items : Option Nat),
        list store pfx offset max_items = list_async store pfx offset max_items)
    ∧ ∀ (store : Store) (pfx : Option String),
        list_with_delimiter store pfx = list_with_delimiter_async store pfx :=
  ⟨fun _ _ _ _ => rfl, fun _ _ => rfl⟩

/-- C6: every converted metadata record lists its fields in exactly the
order `path, last_modified, size, e_tag, version`, with first field named
`path` (not the underlying `location`), and every converted listing result
lists its fields in the order `common_prefixes, objects`; one conversion
function per shape serves all four operations. -/
theorem c6_record_field_order :
    (∀ m : PyObjectMeta,
        m.into_py.dictKeys = ["path", "last_modified", "size", "e_tag", "version"])
    ∧ (∀ m : PyObjectMeta,
        m.into_py.dictKeys.head? = some "path" ∧ "path" ≠ "location")
    ∧ ∀ r : PyListResult,
        r.into_py.dictKeys = ["common_prefixes", "objects"] :=
  ⟨fun _ => rfl, fun _ => ⟨rfl, by decide⟩, fun _ => rfl⟩

/-- C7: the delimiter-grouped operations make exactly one backend call
(`store.list_with_delimiter`), never route through the stream
materializer, apply no cap, and return the backend's grouped result
converted unmodified — same `common_prefixes` in the same order, same
`objects` in the same order — in both the blocking and non-blocking
forms. -/
theorem c7_delimiter_single_call (store : Store) (pfx : Option String)
    (r : ListResult) (h : store.list_with_delimiter pfx = Except.ok r) :
    list_with_delimiter store pfx = Except.ok (PyListResult.mk r)
    ∧ list_with_delimiter_async store pfx = Except.ok (PyListResult.mk r)
    ∧ (PyListResult.mk r).into_py
        = PyValue.dict
            [("common_prefixes", PyValue.list (r.common_prefixes.map PyValue.str)),
             ("objects",
              PyValue.list (r.objects.map fun m => PyObjectMeta.into_py ⟨m⟩))]
    ∧ (list_with_delimiter_materialize_traced store pfx).2
        = [StoreCall.delimiterCall pfx] := by
  refine ⟨?_, ?_, rfl, rfl⟩ <;>
    simp only [list_with_delimiter, list_with_delimiter_async,
      list_with_delimiter_materialize, h, Except.map]

/-- C7 witness: a concrete store whose delimiter call returns one grouped
result; both entry points return it converted unmodified, and the trace
holds the single delimiter call. -/
theorem c7_delimiter_single_call_witness :
    sampleDelimStore.list_with_delimiter none = Except.ok sampleListResult
    ∧ (list_with_delimiter sampleDelimStore none
          = Except.ok (PyListResult.mk sampleListResult)
      ∧ list_with_delimiter_async sampleDelimStore none
          = Except.ok (PyListResult.mk sampleListResult)
      ∧ (PyListResult.mk sampleListResult).into_py
          = PyValue.dict
              [("common_prefixes",
                PyValue.list (sampleListResult.common_prefixes.map PyValue.str)),
               ("objects",
                PyValue.list
                  (sampleListResult.objects.map fun m => PyObjectMeta.into_py ⟨m⟩))]
      ∧ (list_with_delimiter_materialize_traced sampleDelimStore none).2
          = [StoreCall.delimiterCall none]) :=
  ⟨rfl, c7_delimiter_single_call sampleDelimStore none sampleListResult rfl⟩

/-- C8: a flat list called with `offset = some o` folds the store's
offset-resuming stream `store.list_with_offset`; under that source's
contract — no successful item has key lexicographically `≤ o` — no item of
the result has key `≤ o`. -/
theorem c8_offset_exclusive (store : Store) (pfx : Option String) (o : String)
    (max_items : Option Nat) (out : List PyObjectMeta) (x : PyObjectMeta)
    (hstream : excludesLe (store.list_with_offset pfx o) o = true)
    (hout : list store pfx (some o) max_items = Except.ok out)
    (hx : x ∈ out) : ¬ (x.meta.location ≤ o) := by
  have hgo : materializeGo max_items (store.list_with_offset pfx o) []
      = Except.ok out := hout
  have hmem := materializeGo_mem max_items (store.list_with_offset pfx o)
    [] out hgo x hx
  rcases hmem with hacc | hsrc
  · simp at hacc
  · simp only [excludesLe, List.all_eq_true] at hstream
    have := hstream _ hsrc
    simpa using this

/-- C8 witness: offset `"a"`, a source yielding one item with key `"b"`;
the returned item's key is not `≤ "a"`. -/
theorem c8_offset_exclusive_witness :
    excludesLe (sampleOffsetStore.list_with_offset none "a") "a" = true
    ∧ list sampleOffsetStore none (some "a") none
        = Except.ok [PyObjectMeta.mk sampleMetaB]
    ∧ PyObjectMeta.mk sampleMetaB ∈ [PyObjectMeta.mk sampleMetaB]
    ∧ ¬ ((PyObjectMeta.mk sampleMetaB).meta.location ≤ "a") :=
  ⟨by simp [excludesLe, sampleOffsetStore, sampleMetaB]; decide,
   rfl,
   List.mem_singleton.mpr rfl,
   c8_offset_exclusive sampleOffsetStore none "a" none
     [PyObjectMeta.mk sampleMetaB] (PyObjectMeta.mk sampleMetaB)
     (by simp [excludesLe, sampleOffsetStore, sampleMetaB]; decide)
     rfl (List.mem_singleton.mpr rfl)⟩

/-- C9: with cap `n ≥ 1` and a source whose first `n` items (at least) are
successes, the materialization returns those `n` items successfully even
though the source would yield an error later: the cap is reached and the
loop returns before pulling again, so the error is never observed. -/
theorem c9_cap_shields_later_error (oks : List ObjectMeta) (n : Nat)
    (e : Error) (rest : ListStream) (h1 : 1 ≤ n) (h2 : n ≤ oks.length) :
    materialize_list_stream (oks.map Except.ok ++ (Except.error e :: rest))
        (some n)
      = Except.ok ((oks.take n).map PyObjectMeta.mk) := by
  have h := materializeGo_reach n oks (Except.error e :: rest) []
    (by simpa using h1) (by simpa using h2)
  simpa [materialize_list_stream] using h

/-- C9 witness: cap 1, source `[ok, error]`: the call succeeds with the
one item and the error past the cap is never observed. -/
theorem c9_cap_shields_later_error_witness :
    1 ≤ 1 ∧ 1 ≤ ([sampleMeta] : List ObjectMeta).length
    ∧ materialize_list_stream
          ([sampleMeta].map Except.ok ++ (Except.error "boom" :: [])) (some 1)
        = Except.ok (([sampleMeta].take 1).map PyObjectMeta.mk) :=
  ⟨Nat.le_refl 1, by decide,
   c9_cap_shields_later_error [sampleMeta] 1 "boom" [] (Nat.le_refl 1) (by decide)⟩

end ObjectStoreRs
